import Mathlib

/-!
Shallow embedding of the mcp-todo-list-server repository.

Embedded source files:
* `src/database.ts` — the todo store (`TodoDatabase`): CRUD and aggregate
  queries over the `todo_items` table, every query scoped by `user_id`.
* `src/mcp-server.ts` — the MCP tool dispatcher (`TodoMcpServer`): header
  identity extraction, zod validation, result formatting, try/catch error
  swallowing for tool calls, raising for resource reads.
* `src/types.ts` — the zod schemas (`CreateTodoSchema`, `UpdateTodoSchema`,
  `TodoFilterSchema`) and response shapes.

Modelling conventions: SQL timestamps are natural numbers (`CURRENT_TIMESTAMP`
is an explicit `now` parameter); the `todo_items` table is a list of rows in
storage order; `gen_random_uuid()` is an explicit `newId` parameter; a
storage-layer fault is an injected `Option String` (the thrown error message);
JavaScript `x || d` defaulting on strings is explicit empty-string handling.
-/

inductive Priority
  | low
  | medium
  | high
deriving DecidableEq, Repr

/-- Rendering of the priority enum back to its wire string. -/
def Priority.render : Priority → String
  | .low => "low"
  | .medium => "medium"
  | .high => "high"

/-- One row of the `todo_items` table (`TodoItem` in `src/types.ts`). -/
structure TodoItem where
  id : String
  title : String
  description : Option String
  completed : Bool
  priority : Priority
  due_date : Option Nat
  created_at : Nat
  updated_at : Nat
  user_id : String
  user_email : String
  user_name : String
deriving DecidableEq, Repr

/-- The `todo_items` table, rows in storage order. -/
abbrev Store := List TodoItem

/-- `UserInfo` from `src/types.ts`. -/
structure UserInfo where
  id : String
  email : String
  name : String
deriving DecidableEq, Repr

/-- `TodoDatabase.getTodoById`: `SELECT * FROM todo_items WHERE id = $1 AND
user_id = $2`, returning the first matching row or `null`. -/
def getTodoById (st : Store) (id userId : String) : Option TodoItem :=
  st.find? (fun t => t.id == id && t.user_id == userId)

/-- The optional filter record accepted by `TodoDatabase.getAllTodos`. -/
structure Filters where
  completed : Option Bool := none
  priority : Option Priority := none
  search : Option String := none
  limit : Option Nat := none
  offset : Option Nat := none
deriving DecidableEq, Repr

/-- PostgreSQL `LIKE` pattern matching over character lists: `%` matches any
sequence, `_` any single character, anything else itself. -/
def likeChars : List Char → List Char → Bool
  | [], cs => cs.isEmpty
  | '%' :: ps, [] => likeChars ps []
  | '%' :: ps, c :: cs => likeChars ps (c :: cs) || likeChars ('%' :: ps) cs
  | '_' :: _, [] => false
  | '_' :: ps, _ :: cs => likeChars ps cs
  | _ :: _, [] => false
  | p :: ps, c :: cs => (p == c) && likeChars ps cs
termination_by ps cs => (cs.length, ps.length)

/-- PostgreSQL `ILIKE`: case-insensitive `LIKE`. -/
def ilike (pat s : String) : Bool :=
  likeChars (pat.toList.map Char.toLower) (s.toList.map Char.toLower)

/-- The `search` condition of `getAllTodos`: `title ILIKE '%s%' OR description
ILIKE '%s%'`; a `NULL` description never matches. -/
def matchesSearch (s : String) (t : TodoItem) : Bool :=
  ilike ("%" ++ s ++ "%") t.title ||
    (match t.description with
     | some d => ilike ("%" ++ s ++ "%") d
     | none => false)

/-- The `WHERE` clause built by `getAllTodos`: owner equality always; the
`completed` condition when the field is defined (`!== undefined`); the
`priority` and `search` conditions when the field is truthy (an empty search
string is falsy in JavaScript and adds no condition). -/
def todoPred (userId : String) (f : Filters) (t : TodoItem) : Bool :=
  t.user_id == userId &&
  (match f.completed with | some b => t.completed == b | none => true) &&
  (match f.priority with | some p => t.priority == p | none => true) &&
  (match f.search with
   | some s => if s = "" then true else matchesSearch s t
   | none => true)

/-- `ORDER BY created_at DESC`; ties keep storage order. -/
def byCreatedDesc (a b : TodoItem) : Prop := b.created_at ≤ a.created_at

instance : DecidableRel byCreatedDesc := fun a b => Nat.decLe b.created_at a.created_at

instance : IsTotal TodoItem byCreatedDesc := ⟨fun a b => Nat.le_total b.created_at a.created_at⟩

instance : IsTrans TodoItem byCreatedDesc := ⟨fun _ _ _ hab hbc => le_trans hbc hab⟩

/-- `filters.limit || 50` — `undefined` and the falsy `0` both default to 50. -/
def effLimit (f : Filters) : Nat :=
  match f.limit with
  | some (n + 1) => n + 1
  | _ => 50

/-- `filters.offset || 0` — `undefined` and the falsy `0` both give 0. -/
def effOffset (f : Filters) : Nat :=
  match f.offset with
  | some n => n
  | none => 0

/-- `TodoDatabase.getAllTodos`: counts the filtered set, then returns the
filtered rows ordered by `created_at` descending with `LIMIT`/`OFFSET`
applied, together with the pre-pagination total. -/
def getAllTodos (st : Store) (userId : String) (f : Filters) : List TodoItem × Nat :=
  let filtered := st.filter (todoPred userId f)
  let sorted := List.insertionSort byCreatedDesc filtered
  ((sorted.drop (effOffset f)).take (effLimit f), filtered.length)

/-- `UpdateTodoRequest` from `src/types.ts`: every field optional; `due_date`
is carried as its wire string, converted by the store. -/
structure UpdateReq where
  title : Option String := none
  description : Option String := none
  completed : Option Bool := none
  priority : Option Priority := none
  due_date : Option String := none
deriving DecidableEq, Repr

/-- Abstract injective encoding of `new Date(string)`; the claims never depend
on calendar arithmetic, only on which timestamp value is stored. -/
def parseTimestamp (s : String) : Nat :=
  s.foldl (fun a c => a * 256 + c.toNat) 0

/-- True when `updateTodo` would build no `SET` clause (every field
`undefined`). -/
def UpdateReq.isEmpty (u : UpdateReq) : Bool :=
  u.title.isNone && u.description.isNone && u.completed.isNone &&
    u.priority.isNone && u.due_date.isNone

/-- The row produced by the `UPDATE ... SET` statement of
`TodoDatabase.updateTodo`: each present field overwrites, `due_date` via
`updates.due_date ? new Date(updates.due_date) : null`, and
`updated_at = CURRENT_TIMESTAMP`. -/
def applyUpdates (u : UpdateReq) (now : Nat) (t : TodoItem) : TodoItem :=
  { t with
    title := u.title.getD t.title
    description := match u.description with | some d => some d | none => t.description
    completed := u.completed.getD t.completed
    priority := u.priority.getD t.priority
    due_date :=
      match u.due_date with
      | some s => if s = "" then none else some (parseTimestamp s)
      | none => t.due_date
    updated_at := now }

/-- `TodoDatabase.updateTodo`: with no fields present it short-circuits to
`getTodoById` (no write); otherwise it updates every row matching
`id AND user_id` and returns the updated row (`RETURNING *`) or `null`. -/
def updateTodo (st : Store) (now : Nat) (id : String) (u : UpdateReq) (userId : String) :
    Store × Option TodoItem :=
  if u.isEmpty then
    (st, getTodoById st id userId)
  else
    let st' := st.map (fun t =>
      if t.id == id && t.user_id == userId then applyUpdates u now t else t)
    match getTodoById st id userId with
    | none => (st', none)
    | some t => (st', some (applyUpdates u now t))

/-- `TodoDatabase.deleteTodo`: `DELETE ... WHERE id = $1 AND user_id = $2`,
returning `rowCount > 0`. -/
def deleteTodo (st : Store) (id userId : String) : Store × Bool :=
  let removed := st.filter (fun t => t.id == id && t.user_id == userId)
  (st.filter (fun t => !(t.id == id && t.user_id == userId)), decide (0 < removed.length))

/-- `due_date < CURRENT_TIMESTAMP` with SQL `NULL` semantics: a `NULL`
due date never satisfies the comparison. -/
def dueStrictlyBefore (now : Nat) (d : Option Nat) : Bool :=
  match d with
  | some x => decide (x < now)
  | none => false

/-- The `overdue` FILTER condition of `getTodoStats`:
`completed = false AND due_date < CURRENT_TIMESTAMP`. -/
def overduePred (now : Nat) (t : TodoItem) : Bool :=
  !t.completed && dueStrictlyBefore now t.due_date

/-- The result record of `TodoDatabase.getTodoStats`. -/
structure Stats where
  total : Nat
  completed : Nat
  pending : Nat
  overdue : Nat
deriving DecidableEq, Repr

/-- `TodoDatabase.getTodoStats`: one aggregate query over the caller's rows
with the four `COUNT` / `COUNT FILTER` columns. -/
def getTodoStats (st : Store) (now : Nat) (userId : String) : Stats :=
  let mine := st.filter (fun t => t.user_id == userId)
  { total := mine.length
    completed := (mine.filter (fun t => t.completed)).length
    pending := (mine.filter (fun t => !t.completed)).length
    overdue := (mine.filter (overduePred now)).length }

/-- `CreateTodoRequest` from `src/types.ts`. -/
structure CreateReq where
  title : String
  description : Option String := none
  priority : Option Priority := none
  due_date : Option String := none
deriving DecidableEq, Repr

/-- `TodoDatabase.createTodo`: `INSERT ... RETURNING *` with the column
defaults of the schema — `description || null`, `priority || 'medium'`,
`due_date ? new Date(due_date) : null`, `completed` false, both timestamps
`CURRENT_TIMESTAMP`, the owner triple denormalized into the row. -/
def dbCreateTodo (st : Store) (now : Nat) (newId : String) (r : CreateReq) (user : UserInfo) :
    TodoItem × Store :=
  let t : TodoItem :=
    { id := newId
      title := r.title
      description := match r.description with | some d => if d = "" then none else some d | none => none
      completed := false
      priority := r.priority.getD .medium
      due_date := match r.due_date with | some s => if s = "" then none else some (parseTimestamp s) | none => none
      created_at := now
      updated_at := now
      user_id := user.id
      user_email := user.email
      user_name := user.name }
  (t, st ++ [t])

/-- Concatenation of a list of pages, used to state the pagination-coverage
property of `getAllTodos`. -/
def catList {α : Type} : List (List α) → List α
  | [] => []
  | x :: xs => x ++ catList xs

/-- Whether `pat` occurs as a contiguous segment, used to state what a
rendered text does or does not contain. -/
def containsSeg (pat : List Char) : List Char → Bool
  | [] => pat.isEmpty
  | c :: cs => pat.isPrefixOf (c :: cs) || containsSeg pat cs

/-- A JSON-ish argument value as delivered to a tool call. -/
inductive JVal
  | num (q : Rat)
  | str (s : String)
  | bool (b : Bool)
  | null
deriving DecidableEq, Repr

/-- A raw argument object: field name to value, as handed to `schema.parse`. -/
abbrev JObj := List (String × JVal)

/-- JavaScript property access on an argument object. -/
def jLookup (o : JObj) (k : String) : Option JVal :=
  (o.find? (fun p => p.1 == k)).map (fun p => p.2)

/-- One entry of a thrown `ZodError`: the offending field and the constraint
message. -/
structure ZodIssue where
  path : String
  message : String
deriving DecidableEq, Repr

/-- The issues carried by a field result, empty on success. -/
def issuesOf {α : Type} : Except (List ZodIssue) α → List ZodIssue
  | .error e => e
  | .ok _ => []

/-- `z.boolean().optional()` at key `completed`. -/
def parseCompletedField (o : JObj) : Except (List ZodIssue) (Option Bool) :=
  match jLookup o "completed" with
  | none => .ok none
  | some (.bool b) => .ok (some b)
  | some _ => .error [⟨"completed", "Expected boolean"⟩]

/-- `z.enum(["low","medium","high"]).optional()` at key `priority`. -/
def parsePriorityField (o : JObj) : Except (List ZodIssue) (Option Priority) :=
  match jLookup o "priority" with
  | none => .ok none
  | some (.str "low") => .ok (some .low)
  | some (.str "medium") => .ok (some .medium)
  | some (.str "high") => .ok (some .high)
  | some _ => .error [⟨"priority", "Invalid enum value"⟩]

/-- `z.string().optional()` at key `search`. -/
def parseSearchField (o : JObj) : Except (List ZodIssue) (Option String) :=
  match jLookup o "search" with
  | none => .ok none
  | some (.str s) => .ok (some s)
  | some _ => .error [⟨"search", "Expected string"⟩]

/-- `z.number().min(1).max(100).default(50)` at key `limit`: any number in
range passes (no integrality check); an absent key takes the default. -/
def parseLimitField (o : JObj) : Except (List ZodIssue) Rat :=
  match jLookup o "limit" with
  | none => .ok 50
  | some (.num q) =>
    if q < 1 then .error [⟨"limit", "Number must be greater than or equal to 1"⟩]
    else if 100 < q then .error [⟨"limit", "Number must be less than or equal to 100"⟩]
    else .ok q
  | some _ => .error [⟨"limit", "Expected number"⟩]

/-- `z.number().min(0).default(0)` at key `offset`. -/
def parseOffsetField (o : JObj) : Except (List ZodIssue) Rat :=
  match jLookup o "offset" with
  | none => .ok 0
  | some (.num q) =>
    if q < 0 then .error [⟨"offset", "Number must be greater than or equal to 0"⟩]
    else .ok q
  | some _ => .error [⟨"offset", "Expected number"⟩]

/-- Whether a supplied `limit` value passes `z.number().min(1).max(100)`. -/
def limitOk (v : JVal) : Bool :=
  match v with
  | .num q => decide (1 ≤ q) && decide (q ≤ 100)
  | _ => false

/-- Whether a supplied `offset` value passes `z.number().min(0)`. -/
def offsetOk (v : JVal) : Bool :=
  match v with
  | .num q => decide (0 ≤ q)
  | _ => false

/-- The output record of `TodoFilterSchema.parse` (defaults applied, so the
pagination fields are always present). -/
structure ParsedFilter where
  completed : Option Bool
  priority : Option Priority
  search : Option String
  limit : Rat
  offset : Rat
deriving DecidableEq, Repr

/-- `TodoFilterSchema.parse`: each field checked independently; on any failure
the thrown `ZodError` carries every failing field's issues. -/
def parseFilter (o : JObj) : Except (List ZodIssue) ParsedFilter :=
  match parseCompletedField o, parsePriorityField o, parseSearchField o,
      parseLimitField o, parseOffsetField o with
  | .ok c, .ok p, .ok s, .ok l, .ok off => .ok ⟨c, p, s, l, off⟩
  | ec, ep, es, el, eo =>
    .error (issuesOf ec ++ issuesOf ep ++ issuesOf es ++ issuesOf el ++ issuesOf eo)

/-- The shape check of `z.string().datetime()`:
`YYYY-MM-DDTHH:MM:SS(.fraction)?Z`. -/
def isIsoDatetime (s : String) : Bool :=
  match s.toList with
  | y1 :: y2 :: y3 :: y4 :: '-' :: m1 :: m2 :: '-' :: d1 :: d2 :: 'T' ::
      h1 :: h2 :: ':' :: n1 :: n2 :: ':' :: s1 :: s2 :: rest =>
    [y1, y2, y3, y4, m1, m2, d1, d2, h1, h2, n1, n2, s1, s2].all (fun c => c.isDigit) &&
    (match rest with
     | ['Z'] => true
     | '.' :: rest2 =>
       (!rest2.dropLast.isEmpty) && rest2.dropLast.all (fun c => c.isDigit) &&
         rest2.getLast? == some 'Z'
     | _ => false)
  | _ => false

/-- `z.string().min(1,"Title is required").max(255,"Title too long")`,
required, at key `title`. -/
def parseTitleField (o : JObj) : Except (List ZodIssue) String :=
  match jLookup o "title" with
  | none => .error [⟨"title", "Required"⟩]
  | some (.str s) =>
    if s.length < 1 then .error [⟨"title", "Title is required"⟩]
    else if 255 < s.length then .error [⟨"title", "Title too long"⟩]
    else .ok s
  | some _ => .error [⟨"title", "Expected string"⟩]

/-- The same constraints as `parseTitleField` but `.optional()`
(`UpdateTodoSchema`). -/
def parseTitleOptField (o : JObj) : Except (List ZodIssue) (Option String) :=
  match jLookup o "title" with
  | none => .ok none
  | some (.str s) =>
    if s.length < 1 then .error [⟨"title", "Title is required"⟩]
    else if 255 < s.length then .error [⟨"title", "Title too long"⟩]
    else .ok (some s)
  | some _ => .error [⟨"title", "Expected string"⟩]

/-- `z.string().max(1000,"Description too long").optional()` at key
`description`. -/
def parseDescriptionField (o : JObj) : Except (List ZodIssue) (Option String) :=
  match jLookup o "description" with
  | none => .ok none
  | some (.str s) =>
    if 1000 < s.length then .error [⟨"description", "Description too long"⟩]
    else .ok (some s)
  | some _ => .error [⟨"description", "Expected string"⟩]

/-- `z.enum(["low","medium","high"]).default("medium")` at key `priority`. -/
def parsePriorityDefaultField (o : JObj) : Except (List ZodIssue) Priority :=
  match jLookup o "priority" with
  | none => .ok .medium
  | some (.str "low") => .ok .low
  | some (.str "medium") => .ok .medium
  | some (.str "high") => .ok .high
  | some _ => .error [⟨"priority", "Invalid enum value"⟩]

/-- `z.string().datetime().optional()` at key `due_date`. -/
def parseDueDateField (o : JObj) : Except (List ZodIssue) (Option String) :=
  match jLookup o "due_date" with
  | none => .ok none
  | some (.str s) =>
    if isIsoDatetime s then .ok (some s)
    else .error [⟨"due_date", "Invalid datetime"⟩]
  | some _ => .error [⟨"due_date", "Expected string"⟩]

/-- `z.object(\x7b id: z.string() \x7d)` — the identifier-only argument
schema of getTodo/deleteTodo/completeTodo. -/
def parseIdField (o : JObj) : Except (List ZodIssue) String :=
  match jLookup o "id" with
  | none => .error [⟨"id", "Required"⟩]
  | some (.str s) => .ok s
  | some _ => .error [⟨"id", "Expected string"⟩]

/-- `CreateTodoSchema.parse`. -/
def parseCreate (o : JObj) : Except (List ZodIssue) CreateReq :=
  match parseTitleField o, parseDescriptionField o, parsePriorityDefaultField o,
      parseDueDateField o with
  | .ok t, .ok d, .ok p, .ok dd => .ok ⟨t, d, some p, dd⟩
  | et, ed, ep, edd =>
    .error (issuesOf et ++ issuesOf ed ++ issuesOf ep ++ issuesOf edd)

/-- `z.object(\x7b id, ...UpdateTodoSchema.shape \x7d).parse` in
`TodoMcpServer.updateTodo`. -/
def parseUpdateArgs (o : JObj) : Except (List ZodIssue) (String × UpdateReq) :=
  match parseIdField o, parseTitleOptField o, parseDescriptionField o,
      parseCompletedField o, parsePriorityField o, parseDueDateField o with
  | .ok i, .ok t, .ok d, .ok c, .ok p, .ok dd => .ok (i, ⟨t, d, c, p, dd⟩)
  | ei, et, ed, ec, ep, edd =>
    .error (issuesOf ei ++ issuesOf et ++ issuesOf ed ++ issuesOf ec ++
      issuesOf ep ++ issuesOf edd)

/-- Inbound request headers, keys already lowercased by the HTTP layer. -/
abbrev Headers := List (String × String)

/-- JavaScript `headers[k]`. -/
def hGet (h : Headers) (k : String) : Option String :=
  (h.find? (fun p => p.1 == k)).map (fun p => p.2)

/-- JavaScript `x || dflt` on an optional string: `undefined` and the falsy
empty string both fall back to the default. -/
def jsOr (v : Option String) (dflt : String) : String :=
  match v with
  | some s => if s = "" then dflt else s
  | none => dflt

/-- `TodoMcpServer.extractUserInfo`: the three forwarded-identity headers with
anonymous sentinels. -/
def extractUserInfo (h : Headers) : UserInfo :=
  { id := jsOr (hGet h "x-forwarded-user") "anonymous"
    email := jsOr (hGet h "x-forwarded-email") "anonymous@example.com"
    name := jsOr (hGet h "x-forwarded-name") "Anonymous User" }

/-- One block of a `CallToolResult.content` array. -/
inductive ContentBlock
  | text (s : String)
  | resourceLink (uri name mimeType : String) (description : Option String)
deriving DecidableEq, Repr

/-- The MCP tool-call response shape. -/
structure CallToolResult where
  content : List ContentBlock
deriving DecidableEq, Repr

/-- A single-text-block response. -/
def mkTextResult (s : String) : CallToolResult := ⟨[.text s]⟩

/-- A content-bearing text response: nonempty content, every block a
human-readable text block. -/
def contentBearing (r : CallToolResult) : Prop :=
  r.content ≠ [] ∧ ∀ c ∈ r.content, ∃ s, c = ContentBlock.text s

/-- The `error.message` of a thrown `ZodError` as interpolated by the catch
blocks. -/
def zodMessage (issues : List ZodIssue) : String :=
  String.intercalate "; " (issues.map (fun i => i.path ++ ": " ++ i.message))

/-- `Date.toLocaleDateString()`: rendering of a timestamp value; calendar
formatting is out of scope of the claims. -/
def locDate (n : Nat) : String := toString n

/-- The `description` segment of the detail templates:
present-and-nonempty renders a line, otherwise nothing. -/
def descriptionSeg (d : Option String) : String :=
  match d with
  | some s => if s = "" then "" else "Description: " ++ s ++ "\n"
  | none => ""

/-- The optional due-date line of the detail templates. -/
def dueSeg (d : Option Nat) : String :=
  match d with
  | some n => "Due: " ++ locDate n ++ "\n"
  | none => ""

/-- The completion-status phrase. -/
def statusSeg (c : Bool) : String := if c then "✅ Completed" else "⏳ Pending"

/-- The success text of `TodoMcpServer.createTodo`. -/
def createTodoText (t : TodoItem) : String :=
  "✅ TODO created successfully!\n\n**" ++ t.title ++ "**\n" ++
    descriptionSeg t.description ++ "Priority: " ++ t.priority.render ++ "\n" ++
    dueSeg t.due_date ++ "ID: " ++ t.id

/-- The detail text of `TodoMcpServer.getTodo`. -/
def getTodoText (t : TodoItem) : String :=
  "**" ++ t.title ++ "**\n" ++ descriptionSeg t.description ++
    "Status: " ++ statusSeg t.completed ++ "\nPriority: " ++ t.priority.render ++ "\n" ++
    dueSeg t.due_date ++ "Created: " ++ locDate t.created_at ++ "\nUpdated: " ++
    locDate t.updated_at ++ "\nID: " ++ t.id

/-- The per-priority marker of the list rendering. -/
def priorityGlyph : Priority → String
  | .high => "🔴"
  | .medium => "🟡"
  | .low => "🟢"

/-- One line of the `listTodos` rendering. -/
def listLine (t : TodoItem) : String :=
  (if t.completed then "✅" else "⏳") ++ " " ++ priorityGlyph t.priority ++
    " **" ++ t.title ++ "**" ++
    (match t.due_date with
     | some n => " (Due: " ++ locDate n ++ ")"
     | none => "")

/-- The nonempty-list text of `TodoMcpServer.listTodos`. -/
def listTodosText (total : Nat) (todos : List TodoItem) : String :=
  "📝 Found " ++ toString total ++ " TODO items (showing " ++
    toString todos.length ++ "):\n\n" ++
    String.intercalate "\n" (todos.map listLine)

/-- The empty-list text of `TodoMcpServer.listTodos`; the search suffix only
for a truthy search string. -/
def noItemsText (search : Option String) : String :=
  "📝 No TODO items found" ++
    (match search with
     | some s => if s = "" then "" else " matching \"" ++ s ++ "\""
     | none => "")

/-- The success text of `TodoMcpServer.updateTodo`. -/
def updateTodoText (t : TodoItem) : String :=
  "✅ TODO updated successfully!\n\n**" ++ t.title ++ "**\n" ++
    descriptionSeg t.description ++ "Status: " ++ statusSeg t.completed ++
    "\nPriority: " ++ t.priority.render ++ "\n" ++ dueSeg t.due_date ++
    "Updated: " ++ locDate t.updated_at ++ "\nID: " ++ t.id

/-- The success text of `TodoMcpServer.completeTodo`. -/
def completeTodoText (t : TodoItem) : String :=
  "🎉 Congratulations! TODO completed:\n\n**" ++ t.title ++ "**\n" ++
    descriptionSeg t.description ++ "Priority: " ++ t.priority.render ++
    "\nCompleted: " ++ locDate t.updated_at ++ "\nID: " ++ t.id

/-- `Math.round((completed / total) * 100)` guarded by `total > 0` — round
half up on the exact ratio. -/
def completionRate (completed total : Nat) : Int :=
  if 0 < total then ((completed : Rat) * 100 / (total : Rat) + 1/2).floor else 0

/-- The text of `TodoMcpServer.getTodoStats`. -/
def statsText (userName : String) (s : Stats) : String :=
  "📊 TODO Statistics for " ++ userName ++ ":\n\n📝 Total: " ++ toString s.total ++
    "\n✅ Completed: " ++ toString s.completed ++ "\n⏳ Pending: " ++
    toString s.pending ++ "\n🚨 Overdue: " ++ toString s.overdue ++
    "\n\nCompletion Rate: " ++ toString (completionRate s.completed s.total) ++ "%"

/-- The database-level filter record the dispatcher hands to `getAllTodos`;
the store consumes integral pagination values (the identity on every value
the schema accepts as produced by a well-typed caller). -/
def toDbFilters (p : ParsedFilter) : Filters :=
  { completed := p.completed, priority := p.priority, search := p.search,
    limit := some p.limit.floor.toNat, offset := some p.offset.floor.toNat }

/-- `TodoMcpServer.createTodo`: try (extract identity, validate, insert,
format) catch (error text).  A storage fault is the injected `dbErr`
message; the whole body is a total function — no error escapes. -/
def toolCreateTodo (o : JObj) (hd : Headers) (st : Store) (now : Nat) (newId : String)
    (dbErr : Option String) : CallToolResult × Store :=
  match parseCreate o with
  | .error issues => (mkTextResult ("❌ Error creating TODO: " ++ zodMessage issues), st)
  | .ok r =>
    match dbErr with
    | some m => (mkTextResult ("❌ Error creating TODO: " ++ m), st)
    | none =>
      let ts := dbCreateTodo st now newId r (extractUserInfo hd)
      (mkTextResult (createTodoText ts.1), ts.2)

/-- `TodoMcpServer.getTodo`. -/
def toolGetTodo (o : JObj) (hd : Headers) (st : Store) (dbErr : Option String) :
    CallToolResult :=
  match parseIdField o with
  | .error issues => mkTextResult ("❌ Error retrieving TODO: " ++ zodMessage issues)
  | .ok id =>
    match dbErr with
    | some m => mkTextResult ("❌ Error retrieving TODO: " ++ m)
    | none =>
      match getTodoById st id (extractUserInfo hd).id with
      | none => mkTextResult ("❌ TODO with ID \"" ++ id ++ "\" not found")
      | some t => mkTextResult (getTodoText t)

/-- `TodoMcpServer.listTodos`. -/
def toolListTodos (o : JObj) (hd : Headers) (st : Store) (dbErr : Option String) :
    CallToolResult :=
  match parseFilter o with
  | .error issues => mkTextResult ("❌ Error listing TODOs: " ++ zodMessage issues)
  | .ok pf =>
    match dbErr with
    | some m => mkTextResult ("❌ Error listing TODOs: " ++ m)
    | none =>
      let r := getAllTodos st (extractUserInfo hd).id (toDbFilters pf)
      if r.1.length = 0 then mkTextResult (noItemsText pf.search)
      else mkTextResult (listTodosText r.2 r.1)

/-- `TodoMcpServer.updateTodo`. -/
def toolUpdateTodo (o : JObj) (hd : Headers) (st : Store) (now : Nat)
    (dbErr : Option String) : CallToolResult × Store :=
  match parseUpdateArgs o with
  | .error issues => (mkTextResult ("❌ Error updating TODO: " ++ zodMessage issues), st)
  | .ok iu =>
    match dbErr with
    | some m => (mkTextResult ("❌ Error updating TODO: " ++ m), st)
    | none =>
      let r := updateTodo st now iu.1 iu.2 (extractUserInfo hd).id
      match r.2 with
      | none => (mkTextResult ("❌ TODO with ID \"" ++ iu.1 ++ "\" not found"), r.1)
      | some t => (mkTextResult (updateTodoText t), r.1)

/-- `TodoMcpServer.deleteTodo`. -/
def toolDeleteTodo (o : JObj) (hd : Headers) (st : Store) (dbErr : Option String) :
    CallToolResult × Store :=
  match parseIdField o with
  | .error issues => (mkTextResult ("❌ Error deleting TODO: " ++ zodMessage issues), st)
  | .ok id =>
    match dbErr with
    | some m => (mkTextResult ("❌ Error deleting TODO: " ++ m), st)
    | none =>
      let r := deleteTodo st id (extractUserInfo hd).id
      if r.2 then (mkTextResult ("🗑️ TODO with ID \"" ++ id ++ "\" deleted successfully"), r.1)
      else (mkTextResult ("❌ TODO with ID \"" ++ id ++ "\" not found"), r.1)

/-- `TodoMcpServer.getTodoStats` (its params are unused by the code). -/
def toolGetTodoStats (hd : Headers) (st : Store) (now : Nat) (dbErr : Option String) :
    CallToolResult :=
  match dbErr with
  | some m => mkTextResult ("❌ Error getting statistics: " ++ m)
  | none =>
    let user := extractUserInfo hd
    mkTextResult (statsText user.name (getTodoStats st now user.id))

/-- `TodoMcpServer.completeTodo`: an update fixing `completed := true`. -/
def toolCompleteTodo (o : JObj) (hd : Headers) (st : Store) (now : Nat)
    (dbErr : Option String) : CallToolResult × Store :=
  match parseIdField o with
  | .error issues => (mkTextResult ("❌ Error completing TODO: " ++ zodMessage issues), st)
  | .ok id =>
    match dbErr with
    | some m => (mkTextResult ("❌ Error completing TODO: " ++ m), st)
    | none =>
      let r := updateTodo st now id { completed := some true } (extractUserInfo hd).id
      match r.2 with
      | none => (mkTextResult ("❌ TODO with ID \"" ++ id ++ "\" not found"), r.1)
      | some t => (mkTextResult (completeTodoText t), r.1)

/-- The resource descriptor `getTodoResources` builds per item. -/
def todoResourceLink (t : TodoItem) : ContentBlock :=
  .resourceLink ("todo://" ++ t.id) t.title "application/json"
    (some ((if t.completed then "Completed" else "Pending") ++ " - " ++
      t.priority.render ++ " priority" ++
      (match t.due_date with
       | some n => " - Due: " ++ locDate n
       | none => "")))

/-- `TodoMcpServer.getTodoResources`: builds the `resourceLinks` array but the
returned content holds only the two text blocks — the links reach the
response only through their count. -/
def toolGetTodoResources (o : JObj) (hd : Headers) (st : Store) (dbErr : Option String) :
    CallToolResult :=
  match parseFilter o with
  | .error issues => mkTextResult ("❌ Error getting TODO resources: " ++ zodMessage issues)
  | .ok pf =>
    match dbErr with
    | some m => mkTextResult ("❌ Error getting TODO resources: " ++ m)
    | none =>
      let todos := (getAllTodos st (extractUserInfo hd).id (toDbFilters pf)).1
      let resourceLinks := todos.map todoResourceLink
      { content := [
          .text ("📝 Available TODO resources (" ++ toString resourceLinks.length ++
            " items):"),
          .text "\nYou can read any of these resources using their URI." ] }

/-- One entry of a `ReadResourceResult.contents` array. -/
structure ResourceContents where
  uri : String
  text : String
deriving DecidableEq, Repr

/-- The MCP resource-read response shape. -/
structure ReadResourceResult where
  contents : List ResourceContents
deriving DecidableEq, Repr

/-- First-occurrence deletion: JavaScript `s.replace(pat, "")`. -/
def replaceOnce (pat : List Char) : List Char → List Char
  | [] => []
  | c :: cs =>
    if pat.isPrefixOf (c :: cs) then (c :: cs).drop pat.length
    else c :: replaceOnce pat cs

/-- `uri.replace("todo://", "")`. -/
def stripTodoUri (uri : String) : String :=
  String.mk (replaceOnce "todo://".toList uri.toList)

/-- A JSON string literal (escaping out of scope of the claims). -/
def jsonStr (s : String) : String := "\"" ++ s ++ "\""

/-- `JSON.stringify(todo, null, 2)` — the full item as structured text;
an absent (`undefined`) `due_date` is omitted, a `null` description kept. -/
def serializeTodo (t : TodoItem) : String :=
  "\x7b\n  \"id\": " ++ jsonStr t.id ++
  ",\n  \"title\": " ++ jsonStr t.title ++
  ",\n  \"description\": " ++ (match t.description with | some d => jsonStr d | none => "null") ++
  ",\n  \"completed\": " ++ (if t.completed then "true" else "false") ++
  ",\n  \"priority\": " ++ jsonStr t.priority.render ++
  (match t.due_date with | some n => ",\n  \"due_date\": " ++ jsonStr (locDate n) | none => "") ++
  ",\n  \"created_at\": " ++ jsonStr (locDate t.created_at) ++
  ",\n  \"updated_at\": " ++ jsonStr (locDate t.updated_at) ++
  ",\n  \"user_id\": " ++ jsonStr t.user_id ++
  ",\n  \"user_email\": " ++ jsonStr t.user_email ++
  ",\n  \"user_name\": " ++ jsonStr t.user_name ++ "\n\x7d"

/-- `TodoMcpServer.readTodoResource`: unlike the tool handlers this one
re-raises — a not-found or storage fault becomes a thrown error with the
wrapping message, modelled as `Except.error`. -/
def readTodoResource (st : Store) (uri : String) (hd : Headers) (dbErr : Option String) :
    Except String ReadResourceResult :=
  let user := extractUserInfo hd
  let todoId := stripTodoUri uri
  match dbErr with
  | some m => .error ("Error reading TODO resource: " ++ m)
  | none =>
    match getTodoById st todoId user.id with
    | none =>
      .error ("Error reading TODO resource: TODO with ID \"" ++ todoId ++ "\" not found")
    | some t => .ok { contents := [{ uri := uri, text := serializeTodo t }] }

/-- The destructured (unvalidated) params of `getCreateTodoPrompt`. -/
structure PromptParams where
  title : Option String
  description : Option String
  priority : Option String
  due_date : Option String
deriving DecidableEq, Repr

/-- The content of a prompt message. -/
structure PromptContent where
  type : String
  text : String
deriving DecidableEq, Repr

/-- One prompt message. -/
structure PromptMessage where
  role : String
  content : PromptContent
deriving DecidableEq, Repr

/-- The MCP prompt response shape. -/
structure GetPromptResult where
  messages : List PromptMessage
deriving DecidableEq, Repr

/-- The template-literal body of `getCreateTodoPrompt`, right-nested so each
interpolated slot is visible; note the `priority` slot falls back to the
plain string "medium" where the other slots fall back to bracketed
placeholders. -/
def promptTextOf (title description priority due_date : Option String) : String :=
  "Please help me create a TODO item with the following details:\nTitle: " ++
    (jsOr title "[Please provide a title]" ++
      ("\nDescription: " ++
        (jsOr description "[Optional description]" ++
          ("\nPriority: " ++
            (jsOr priority "medium" ++
              ("\nDue Date: " ++
                (jsOr due_date "[Optional due date]" ++
                  "\n\nPlease provide any additional suggestions or improvements for this TODO item.")))))))

/-- `TodoMcpServer.getCreateTodoPrompt`: a single user-role message, no
validation of the params. -/
def getCreateTodoPrompt (p : PromptParams) : GetPromptResult :=
  { messages := [{ role := "user"
                   content := { type := "text"
                                text := promptTextOf p.title p.description p.priority p.due_date } }] }

/-- A concrete row used by the claim witnesses. -/
def aliceItem : TodoItem :=
  { id := "t1", title := "Buy milk", description := none, completed := false,
    priority := .medium, due_date := none, created_at := 3, updated_at := 3,
    user_id := "alice", user_email := "a@example.com", user_name := "Alice" }

theorem map_id_of_mem {α : Type} (l : List α) (f : α → α) (h : ∀ a ∈ l, f a = a) :
    l.map f = l := by
  induction l with
  | nil => rfl
  | cons a l ih =>
    simp only [List.map_cons]
    rw [h a (by simp), ih (fun b hb => h b (by simp [hb]))]

theorem length_filter_add_length_filter_not {α : Type} (p : α → Bool) (l : List α) :
    (l.filter p).length + (l.filter (fun a => !p a)).length = l.length := by
  induction l with
  | nil => rfl
  | cons a l ih =>
    by_cases h : p a <;> simp [List.filter_cons, h, ← ih] <;> omega

theorem length_filter_mono {α : Type} (p q : α → Bool) (h : ∀ a, p a = true → q a = true)
    (l : List α) : (l.filter p).length ≤ (l.filter q).length := by
  induction l with
  | nil => exact Nat.le_refl _
  | cons a l ih =>
    by_cases hp : p a
    · simp [List.filter_cons, hp, h a hp]
      omega
    · by_cases hq : q a <;> simp [List.filter_cons, hp, hq] <;> omega

/-- Claim C1: calling `getTodoById`, `updateTodo`, or `deleteTodo` with an id
whose every matching row belongs to a different owner (which covers both an id
owned by someone else and an id existing nowhere) yields exactly the
missing-id result: `null`, `null`, `false`, with the store untouched — the
joint `id AND user_id` filter is the sole access-control mechanism and leaks
no existence information. -/
theorem foreignOwner_indistinguishable (st : Store) (id uid : String) (u : UpdateReq) (now : Nat)
    (hall : ∀ t ∈ st, t.id = id → t.user_id ≠ uid) :
    getTodoById st id uid = none ∧
    updateTodo st now id u uid = (st, none) ∧
    deleteTodo st id uid = (st, false) := by
  have hpred : ∀ t ∈ st, (t.id == id && t.user_id == uid) = false := by
    intro t ht
    by_cases h1 : t.id = id
    · have h2 := hall t ht h1
      simp [h1, h2]
    · simp [h1]
  have hget : getTodoById st id uid = none := by
    rw [getTodoById, List.find?_eq_none]
    intro t ht
    simp [hpred t ht]
  refine ⟨hget, ?_, ?_⟩
  · have hmap : st.map (fun t =>
        if t.id == id && t.user_id == uid then applyUpdates u now t else t) = st :=
      map_id_of_mem st _ (fun t ht => by simp [hpred t ht])
    unfold updateTodo
    by_cases he : u.isEmpty
    · rw [if_pos he, hget]
    · rw [if_neg he]
      simp only [hget, hmap]
  · have hrem : st.filter (fun t => t.id == id && t.user_id == uid) = [] := by
      rw [List.filter_eq_nil_iff]
      intro t ht
      simp [hpred t ht]
    have hkeep : st.filter (fun t => !(t.id == id && t.user_id == uid)) = st := by
      rw [List.filter_eq_self]
      intro t ht
      simp [hpred t ht]
    have hd : deleteTodo st id uid
        = (st.filter (fun t => !(t.id == id && t.user_id == uid)),
           decide (0 < (st.filter (fun t => t.id == id && t.user_id == uid)).length)) := rfl
    rw [hd, hrem, hkeep]
    rfl

/-- Witness for C1 at a concrete store: Alice's item is invisible to Bob. -/
theorem foreignOwner_indistinguishable_witness :
    getTodoById [aliceItem] "t1" "bob" = none ∧
    deleteTodo [aliceItem] "t1" "bob" = ([aliceItem], false) :=
  have h := foreignOwner_indistinguishable [aliceItem] "t1" "bob" {} 5 (by
    intro t ht h1
    simp at ht
    subst ht
    decide)
  ⟨h.1, h.2.2⟩

/-- Claim C3: `updateTodo` with an empty partial field set is a pure read — it
returns the stored row unchanged and does not touch the store, so `updated_at`
is not advanced; with at least one field present it sets `updated_at` to the
current time (which is `≥` the prior value whenever time is monotone), while
every absent field keeps its previous value and `created_at` is preserved. -/
theorem updateTodo_empty_and_frame (st : Store) (now : Nat) (id uid : String) (u : UpdateReq)
    (t : TodoItem) (hget : getTodoById st id uid = some t) (hnow : t.updated_at ≤ now) :
    (u.isEmpty = true → updateTodo st now id u uid = (st, some t)) ∧
    (u.isEmpty = false →
      (updateTodo st now id u uid).2 = some (applyUpdates u now t) ∧
      (applyUpdates u now t).updated_at = now ∧
      t.updated_at ≤ (applyUpdates u now t).updated_at ∧
      (applyUpdates u now t).created_at = t.created_at ∧
      (u.title = none → (applyUpdates u now t).title = t.title) ∧
      (u.description = none → (applyUpdates u now t).description = t.description) ∧
      (u.completed = none → (applyUpdates u now t).completed = t.completed) ∧
      (u.priority = none → (applyUpdates u now t).priority = t.priority) ∧
      (u.due_date = none → (applyUpdates u now t).due_date = t.due_date)) := by
  constructor
  · intro he
    simp [updateTodo, he, hget]
  · intro he
    refine ⟨by simp [updateTodo, he, hget], rfl, ?_, rfl, ?_, ?_, ?_, ?_, ?_⟩
    · simpa [applyUpdates] using hnow
    · intro h; simp [applyUpdates, h]
    · intro h; simp [applyUpdates, h]
    · intro h; simp [applyUpdates, h]
    · intro h; simp [applyUpdates, h]
    · intro h; simp [applyUpdates, h]

/-- Witness for C3 at a concrete store: the empty update is a pure read and a
title-only update stamps `updated_at` while keeping `completed`. -/
theorem updateTodo_empty_and_frame_witness :
    updateTodo [aliceItem] 7 "t1" {} "alice" = ([aliceItem], some aliceItem) :=
  (updateTodo_empty_and_frame [aliceItem] 7 "t1" "alice" {} aliceItem
    (by decide) (by decide)).1 (by decide)

/-- Claim C5: the stats of any owner satisfy `total = completed + pending` and
`overdue ≤ pending`; `overdue` counts exactly the incomplete rows whose due
date is strictly before the current time, and a row without a due date never
satisfies the overdue condition, however old it is. -/
theorem getTodoStats_invariants (st : Store) (now : Nat) (uid : String) :
    (getTodoStats st now uid).total
        = (getTodoStats st now uid).completed + (getTodoStats st now uid).pending ∧
    (getTodoStats st now uid).overdue ≤ (getTodoStats st now uid).pending ∧
    (getTodoStats st now uid).overdue
        = ((st.filter (fun t => t.user_id == uid)).filter
            (fun t => !t.completed && dueStrictlyBefore now t.due_date)).length ∧
    (∀ t : TodoItem, overduePred now { t with due_date := none } = false) := by
  refine ⟨?_, ?_, rfl, ?_⟩
  · exact (length_filter_add_length_filter_not (fun t => t.completed)
      (st.filter (fun t => t.user_id == uid))).symm
  · exact length_filter_mono _ _
      (fun t h => by
        show (!t.completed) = true
        have h' : (!t.completed && dueStrictlyBefore now t.due_date) = true := h
        revert h'
        cases t.completed <;> simp)
      (st.filter (fun t => t.user_id == uid))
  · intro t
    exact Bool.and_false _

theorem catList_windows {α : Type} (L : Nat) :
    ∀ (n : Nat) (l : List α), l.length ≤ n * L →
      catList ((List.range n).map (fun k => (l.drop (k * L)).take L)) = l := by
  intro n
  induction n with
  | zero =>
    intro l hl
    have h0 : l = [] := List.eq_nil_of_length_eq_zero (by omega)
    subst h0
    rfl
  | succ n ih =>
    intro l hl
    rw [List.range_succ_eq_map, List.map_cons, List.map_map]
    have hfun : ((fun k => (l.drop (k * L)).take L) ∘ Nat.succ)
        = fun k => ((l.drop L).drop (k * L)).take L := by
      funext k
      simp only [Function.comp_apply]
      rw [List.drop_drop, Nat.succ_mul, Nat.add_comm (k * L) L]
    rw [hfun]
    have hlen : (l.drop L).length ≤ n * L := by
      rw [Nat.succ_mul] at hl
      rw [List.length_drop]
      generalize hM : n * L = M at hl ⊢
      omega
    simp only [catList]
    rw [ih (l.drop L) hlen, Nat.zero_mul, List.drop_zero]
    exact List.take_append_drop L l

theorem ceil_cover (N L : Nat) (hL : 0 < L) : N ≤ ((N + L - 1) / L) * L := by
  have h4 : N + L - 1 < (((N + L - 1) / L) + 1) * L :=
    (Nat.div_lt_iff_lt_mul hL).1 (Nat.lt_succ_self _)
  rw [Nat.succ_mul] at h4
  generalize hM : ((N + L - 1) / L) * L = M at h4 ⊢
  omega

theorem effLimit_pos (f : Filters) : 0 < effLimit f := by
  unfold effLimit
  cases f.limit with
  | none => decide
  | some n =>
    cases n with
    | zero => decide
    | succ m => exact Nat.succ_pos m

/-- Claim C4: the total returned by `getAllTodos` is the number of the owner's
rows passing the completed/priority/search filters, unchanged by whatever
limit and offset are supplied; the returned page is ordered by `created_at`
descending; and the concatenation of the successive limit/offset windows over
an unchanged store is exactly the sorted filtered list — a permutation of the
filtered rows, so every filtered item appears exactly once. -/
theorem getAllTodos_spec (st : Store) (uid : String) (f : Filters) :
    (getAllTodos st uid f).2 = (st.filter (todoPred uid f)).length ∧
    (∀ l o, (getAllTodos st uid { f with limit := l, offset := o }).2
        = (st.filter (todoPred uid f)).length) ∧
    List.Sorted byCreatedDesc (getAllTodos st uid f).1 ∧
    catList ((List.range (((st.filter (todoPred uid f)).length + effLimit f - 1) / effLimit f)).map
        (fun k => (getAllTodos st uid { f with offset := some (k * effLimit f) }).1))
      = List.insertionSort byCreatedDesc (st.filter (todoPred uid f)) ∧
    (catList ((List.range (((st.filter (todoPred uid f)).length + effLimit f - 1) / effLimit f)).map
        (fun k => (getAllTodos st uid { f with offset := some (k * effLimit f) }).1))).Perm
      (st.filter (todoPred uid f)) := by
  have hs : List.Sorted byCreatedDesc
      (List.insertionSort byCreatedDesc (st.filter (todoPred uid f))) :=
    List.sorted_insertionSort byCreatedDesc _
  have hcover : (List.insertionSort byCreatedDesc (st.filter (todoPred uid f))).length
      ≤ (((st.filter (todoPred uid f)).length + effLimit f - 1) / effLimit f) * effLimit f := by
    rw [(List.perm_insertionSort byCreatedDesc (st.filter (todoPred uid f))).length_eq]
    exact ceil_cover _ _ (effLimit_pos f)
  have heq := catList_windows (effLimit f)
    (((st.filter (todoPred uid f)).length + effLimit f - 1) / effLimit f)
    (List.insertionSort byCreatedDesc (st.filter (todoPred uid f))) hcover
  refine ⟨rfl, fun l o => rfl, ?_, ?_, ?_⟩
  · exact List.Pairwise.sublist
      ((List.take_sublist _ _).trans (List.drop_sublist _ _)) hs
  · exact heq
  · have hperm := List.perm_insertionSort byCreatedDesc (st.filter (todoPred uid f))
    exact heq.symm ▸ hperm

theorem contentBearing_mkTextResult (s : String) : contentBearing (mkTextResult s) := by
  constructor
  · simp [mkTextResult]
  · intro c hc
    simp [mkTextResult] at hc
    exact ⟨s, hc⟩

theorem contentBearing_twoTexts (s1 s2 : String) :
    contentBearing ⟨[ContentBlock.text s1, ContentBlock.text s2]⟩ := by
  constructor
  · simp
  · intro c hc
    simp at hc
    rcases hc with h | h
    · exact ⟨s1, h⟩
    · exact ⟨s2, h⟩

/-- Claim C2: every tool handler, on every argument object (including ones
failing validation), header map, store state, and injected storage fault,
returns a content-bearing response whose blocks are all human-readable text —
the try/catch dispatcher boundary never lets a raised error escape (each
handler is a total function into `CallToolResult`). -/
theorem tools_always_text (o : JObj) (hd : Headers) (st : Store) (now : Nat)
    (newId : String) (dbErr : Option String) :
    contentBearing (toolCreateTodo o hd st now newId dbErr).1 ∧
    contentBearing (toolGetTodo o hd st dbErr) ∧
    contentBearing (toolListTodos o hd st dbErr) ∧
    contentBearing (toolUpdateTodo o hd st now dbErr).1 ∧
    contentBearing (toolDeleteTodo o hd st dbErr).1 ∧
    contentBearing (toolGetTodoStats hd st now dbErr) ∧
    contentBearing (toolCompleteTodo o hd st now dbErr).1 ∧
    contentBearing (toolGetTodoResources o hd st dbErr) := by
  refine ⟨?_, ?_, ?_, ?_, ?_, ?_, ?_, ?_⟩
  · unfold toolCreateTodo
    cases parseCreate o with
    | error e => exact contentBearing_mkTextResult _
    | ok r =>
      cases dbErr with
      | some m => exact contentBearing_mkTextResult _
      | none => exact contentBearing_mkTextResult _
  · unfold toolGetTodo
    cases parseIdField o with
    | error e => exact contentBearing_mkTextResult _
    | ok id =>
      dsimp only
      cases dbErr with
      | some m => exact contentBearing_mkTextResult _
      | none =>
        dsimp only
        cases getTodoById st id (extractUserInfo hd).id with
        | none => exact contentBearing_mkTextResult _
        | some t => exact contentBearing_mkTextResult _
  · unfold toolListTodos
    cases parseFilter o with
    | error e => exact contentBearing_mkTextResult _
    | ok pf =>
      cases dbErr with
      | some m => exact contentBearing_mkTextResult _
      | none =>
        by_cases hz : (getAllTodos st (extractUserInfo hd).id (toDbFilters pf)).1.length = 0
        · simp only [hz, if_true]
          exact contentBearing_mkTextResult _
        · simp only [hz, if_false]
          exact contentBearing_mkTextResult _
  · unfold toolUpdateTodo
    cases parseUpdateArgs o with
    | error e => exact contentBearing_mkTextResult _
    | ok iu =>
      dsimp only
      cases dbErr with
      | some m => exact contentBearing_mkTextResult _
      | none =>
        dsimp only
        cases (updateTodo st now iu.1 iu.2 (extractUserInfo hd).id).2 with
        | none => exact contentBearing_mkTextResult _
        | some t => exact contentBearing_mkTextResult _
  · unfold toolDeleteTodo
    cases parseIdField o with
    | error e => exact contentBearing_mkTextResult _
    | ok id =>
      cases dbErr with
      | some m => exact contentBearing_mkTextResult _
      | none =>
        by_cases hb : (deleteTodo st id (extractUserInfo hd).id).2
        · simp only [hb, if_true]
          exact contentBearing_mkTextResult _
        · simp only [hb, if_false]
          exact contentBearing_mkTextResult _
  · unfold toolGetTodoStats
    cases dbErr with
    | some m => exact contentBearing_mkTextResult _
    | none => exact contentBearing_mkTextResult _
  · unfold toolCompleteTodo
    cases parseIdField o with
    | error e => exact contentBearing_mkTextResult _
    | ok id =>
      dsimp only
      cases dbErr with
      | some m => exact contentBearing_mkTextResult _
      | none =>
        dsimp only
        cases (updateTodo st now id { completed := some true } (extractUserInfo hd).id).2 with
        | none => exact contentBearing_mkTextResult _
        | some t => exact contentBearing_mkTextResult _
  · unfold toolGetTodoResources
    cases parseFilter o with
    | error e => exact contentBearing_mkTextResult _
    | ok pf =>
      cases dbErr with
      | some m => exact contentBearing_mkTextResult _
      | none => exact contentBearing_twoTexts _ _

theorem isPrefixOf_append_self (p rest : List Char) : p.isPrefixOf (p ++ rest) = true := by
  induction p with
  | nil => cases rest <;> rfl
  | cons a ps ih => simp [List.isPrefixOf, ih]

theorem replaceOnce_self_prefix (a : Char) (ps rest : List Char) :
    replaceOnce (a :: ps) ((a :: ps) ++ rest) = rest := by
  show replaceOnce (a :: ps) (a :: (ps ++ rest)) = rest
  have hp : (a :: ps).isPrefixOf (a :: (ps ++ rest)) = true :=
    isPrefixOf_append_self (a :: ps) rest
  rw [replaceOnce, if_pos hp]
  show (ps ++ rest).drop ps.length = rest
  exact List.drop_left ps rest

theorem string_data_append (a b : String) : (a ++ b).data = a.data ++ b.data := by
  cases a
  cases b
  rfl

theorem stripTodoUri_concat (id : String) : stripTodoUri ("todo://" ++ id) = id := by
  unfold stripTodoUri
  have hdata : ("todo://" ++ id).toList = 't' :: 'o' :: 'd' :: 'o' :: ':' :: '/' :: '/' :: id.data := by
    show ("todo://" ++ id).data = _
    rw [string_data_append]
    rfl
  rw [hdata]
  have h2 : replaceOnce "todo://".toList (('t' :: 'o' :: 'd' :: 'o' :: ':' :: '/' :: '/' :: []) ++ id.data) = id.data :=
    replaceOnce_self_prefix 't' ['o', 'd', 'o', ':', '/', '/'] id.data
  rw [show ('t' :: 'o' :: 'd' :: 'o' :: ':' :: '/' :: '/' :: id.data)
      = ('t' :: 'o' :: 'd' :: 'o' :: ':' :: '/' :: '/' :: []) ++ id.data from rfl, h2]

/-- Claim C6: reading the resource address `todo://` + id under normal storage
raises an error (an `Except.error`, not a content-bearing response) exactly
when no item with that id owned by the caller exists, and otherwise returns
the full item serialized as structured text. -/
theorem readTodoResource_spec (st : Store) (id : String) (hd : Headers) :
    readTodoResource st ("todo://" ++ id) hd none =
      (match getTodoById st id (extractUserInfo hd).id with
       | none => Except.error
           ("Error reading TODO resource: TODO with ID \"" ++ id ++ "\" not found")
       | some t => Except.ok
           { contents := [{ uri := "todo://" ++ id, text := serializeTodo t }] }) := by
  cases hgt : getTodoById st id (extractUserInfo hd).id with
  | none => simp only [readTodoResource, stripTodoUri_concat, hgt]
  | some t => simp only [readTodoResource, stripTodoUri_concat, hgt]

/-- Claim C7 (code bug): at a store holding exactly one item matching the
caller, getTodoResources answers with only the two text blocks — the
per-item resource descriptors (address todo://id, display name = title,
media type application/json, composed description) are built by the code
but never placed in the returned content, even though the first text block
counts them and the second invites reading "these resources" by URI. -/
theorem getTodoResources_drops_links :
    toolGetTodoResources [] [("x-forwarded-user", "alice")] [aliceItem] none =
      { content := [
          ContentBlock.text "📝 Available TODO resources (1 items):",
          ContentBlock.text "\nYou can read any of these resources using their URI." ] } ∧
    (toolGetTodoResources [] [("x-forwarded-user", "alice")] [aliceItem] none).content.all
      (fun c => match c with
        | ContentBlock.resourceLink _ _ _ _ => false
        | _ => true) = true ∧
    todoResourceLink aliceItem =
      ContentBlock.resourceLink "todo://t1" "Buy milk" "application/json"
        (some "Pending - medium priority") ∧
    ((getAllTodos [aliceItem] "alice"
        (toDbFilters ⟨none, none, none, 50, 0⟩)).1.map todoResourceLink).length = 1 := by
  refine ⟨?_, ?_, ?_, ?_⟩ <;> rfl

theorem parseFilter_ok_fields (o : JObj) (pf : ParsedFilter) (h : parseFilter o = .ok pf) :
    parseCompletedField o = .ok pf.completed ∧ parsePriorityField o = .ok pf.priority ∧
    parseSearchField o = .ok pf.search ∧ parseLimitField o = .ok pf.limit ∧
    parseOffsetField o = .ok pf.offset := by
  unfold parseFilter at h
  cases hc : parseCompletedField o <;>
    cases hp : parsePriorityField o <;>
      cases hs2 : parseSearchField o <;>
        cases hl : parseLimitField o <;>
          cases hoff : parseOffsetField o <;>
            rw [hc, hp, hs2, hl, hoff] at h <;>
            simp at h <;>
            subst h <;>
            exact ⟨rfl, rfl, rfl, rfl, rfl⟩

theorem parseFilter_error_of_limit (o : JObj) (e : List ZodIssue)
    (h : parseLimitField o = .error e) :
    ∃ es, parseFilter o = .error es ∧ ∀ i ∈ e, i ∈ es := by
  unfold parseFilter
  rw [h]
  cases hc : parseCompletedField o <;>
    cases hp : parsePriorityField o <;>
      cases hs2 : parseSearchField o <;>
        cases hoff : parseOffsetField o <;>
          exact ⟨_, rfl, by intro i hi; simp [issuesOf, hi]⟩

theorem parseFilter_error_of_offset (o : JObj) (e : List ZodIssue)
    (h : parseOffsetField o = .error e) :
    ∃ es, parseFilter o = .error es ∧ ∀ i ∈ e, i ∈ es := by
  unfold parseFilter
  rw [h]
  cases hc : parseCompletedField o <;>
    cases hp : parsePriorityField o <;>
      cases hs2 : parseSearchField o <;>
        cases hl : parseLimitField o <;>
          exact ⟨_, rfl, by intro i hi; simp [issuesOf, hi]⟩

/-- Claim C8 (amended): the filter validator accepts a supplied limit exactly
when it is a number between 1 and 100 inclusive — integrality is not checked —
defaulting to 50 when absent, and a supplied offset exactly when it is a
number ≥ 0, defaulting to 0 when absent; every other value is rejected with a
structured error naming the offending field, and on a validation error the
listTodos handler never consults the store. -/
theorem filterSchema_pagination_spec (o : JObj) (hd : Headers) (pf : ParsedFilter) (v : JVal) :
    (parseFilter o = .ok pf → jLookup o "limit" = none → pf.limit = 50) ∧
    (parseFilter o = .ok pf → jLookup o "limit" = some v →
      v = .num pf.limit ∧ 1 ≤ pf.limit ∧ pf.limit ≤ 100) ∧
    (parseFilter o = .ok pf → jLookup o "offset" = none → pf.offset = 0) ∧
    (parseFilter o = .ok pf → jLookup o "offset" = some v →
      v = .num pf.offset ∧ 0 ≤ pf.offset) ∧
    (jLookup o "limit" = some v → limitOk v = false →
      ∃ es, parseFilter o = .error es ∧ ∃ m, ZodIssue.mk "limit" m ∈ es) ∧
    (jLookup o "offset" = some v → offsetOk v = false →
      ∃ es, parseFilter o = .error es ∧ ∃ m, ZodIssue.mk "offset" m ∈ es) ∧
    (∀ es, parseFilter o = .error es →
      ∀ st st' : Store, ∀ d d' : Option String,
        toolListTodos o hd st d = toolListTodos o hd st' d') := by
  refine ⟨?_, ?_, ?_, ?_, ?_, ?_, ?_⟩
  · intro hok hnone
    have h4 := (parseFilter_ok_fields o pf hok).2.2.2.1
    unfold parseLimitField at h4
    rw [hnone] at h4
    exact (Except.ok.inj h4).symm
  · intro hok hsome
    have h4 := (parseFilter_ok_fields o pf hok).2.2.2.1
    unfold parseLimitField at h4
    rw [hsome] at h4
    cases v with
    | num q =>
      dsimp only at h4
      by_cases h1 : q < 1
      · rw [if_pos h1] at h4
        exact absurd h4 (by simp)
      · rw [if_neg h1] at h4
        by_cases h2 : (100 : Rat) < q
        · rw [if_pos h2] at h4
          exact absurd h4 (by simp)
        · rw [if_neg h2] at h4
          have hq : q = pf.limit := Except.ok.inj h4
          subst hq
          exact ⟨rfl, le_of_not_lt h1, le_of_not_lt h2⟩
    | str s => exact absurd h4 (by simp)
    | bool b => exact absurd h4 (by simp)
    | null => exact absurd h4 (by simp)
  · intro hok hnone
    have h5 := (parseFilter_ok_fields o pf hok).2.2.2.2
    unfold parseOffsetField at h5
    rw [hnone] at h5
    exact (Except.ok.inj h5).symm
  · intro hok hsome
    have h5 := (parseFilter_ok_fields o pf hok).2.2.2.2
    unfold parseOffsetField at h5
    rw [hsome] at h5
    cases v with
    | num q =>
      dsimp only at h5
      by_cases h1 : q < 0
      · rw [if_pos h1] at h5
        exact absurd h5 (by simp)
      · rw [if_neg h1] at h5
        have hq : q = pf.offset := Except.ok.inj h5
        subst hq
        exact ⟨rfl, le_of_not_lt h1⟩
    | str s => exact absurd h5 (by simp)
    | bool b => exact absurd h5 (by simp)
    | null => exact absurd h5 (by simp)
  · intro hsome hbad
    have hl : ∃ m, parseLimitField o = .error [ZodIssue.mk "limit" m] := by
      unfold parseLimitField
      rw [hsome]
      cases v with
      | num q =>
        dsimp only
        unfold limitOk at hbad
        dsimp only at hbad
        by_cases h1 : q < 1
        · exact ⟨_, by rw [if_pos h1]⟩
        · by_cases h2 : (100 : Rat) < q
          · exact ⟨_, by rw [if_neg h1, if_pos h2]⟩
          · exfalso
            have hge : (1 : Rat) ≤ q := le_of_not_lt h1
            have hle : q ≤ 100 := le_of_not_lt h2
            simp [hge, hle] at hbad
      | str s => exact ⟨_, rfl⟩
      | bool b => exact ⟨_, rfl⟩
      | null => exact ⟨_, rfl⟩
    obtain ⟨m, hm⟩ := hl
    obtain ⟨es, hes, hmem⟩ := parseFilter_error_of_limit o _ hm
    exact ⟨es, hes, m, hmem _ (by simp)⟩
  · intro hsome hbad
    have hl : ∃ m, parseOffsetField o = .error [ZodIssue.mk "offset" m] := by
      unfold parseOffsetField
      rw [hsome]
      cases v with
      | num q =>
        dsimp only
        unfold offsetOk at hbad
        dsimp only at hbad
        by_cases h1 : q < 0
        · exact ⟨_, by rw [if_pos h1]⟩
        · exfalso
          have hge : (0 : Rat) ≤ q := le_of_not_lt h1
          simp [hge] at hbad
      | str s => exact ⟨_, rfl⟩
      | bool b => exact ⟨_, rfl⟩
      | null => exact ⟨_, rfl⟩
    obtain ⟨m, hm⟩ := hl
    obtain ⟨es, hes, hmem⟩ := parseFilter_error_of_offset o _ hm
    exact ⟨es, hes, m, hmem _ (by simp)⟩
  · intro es hes st st' d d'
    unfold toolListTodos
    rw [hes]

/-- Witness for C8: a string-valued limit is rejected with an error naming
the limit field. -/
theorem filterSchema_pagination_spec_witness :
    ∃ es, parseFilter [("limit", JVal.str "x")] = .error es ∧
      ∃ m, ZodIssue.mk "limit" m ∈ es :=
  (filterSchema_pagination_spec [("limit", JVal.str "x")] [] ⟨none, none, none, 50, 0⟩
    (JVal.str "x")).2.2.2.2.1 rfl rfl

/-- Counterexample to C8 as stated: the validator accepts the non-integer
limit 5/2, so "only when it is an integer" fails. -/
theorem filterSchema_integer_counterexample :
    parseFilter [("limit", JVal.num (mkRat 5 2))]
      = .ok ⟨none, none, none, mkRat 5 2, 0⟩ ∧
    ¬ (mkRat 5 2).isInt := by
  constructor
  · rfl
  · decide

theorem str_append_assoc (a b c : String) : a ++ b ++ c = a ++ (b ++ c) := by
  obtain ⟨la⟩ := a
  obtain ⟨lb⟩ := b
  obtain ⟨lc⟩ := c
  show String.mk ((la ++ lb) ++ lc) = String.mk (la ++ (lb ++ lc))
  rw [List.append_assoc]

theorem str_empty_append (s : String) : "" ++ s = s := by
  obtain ⟨l⟩ := s
  show String.mk ([] ++ l) = String.mk l
  rw [List.nil_append]

theorem embed_head (b r : String) : ∃ x y, b ++ r = x ++ b ++ y :=
  ⟨"", r, by rw [str_empty_append]⟩

theorem embed_cons (a r b : String) (h : ∃ x y, r = x ++ b ++ y) :
    ∃ x y, a ++ r = x ++ b ++ y := by
  obtain ⟨x, y, hx⟩ := h
  refine ⟨a ++ x, y, ?_⟩
  rw [hx]
  simp [str_append_assoc]

theorem containsSeg_of_append (pat s t : List Char) :
    containsSeg pat (s ++ pat ++ t) = true := by
  induction s with
  | nil =>
    cases pat with
    | nil =>
      cases t with
      | nil => rfl
      | cons c cs => rfl
    | cons a ps =>
      show containsSeg (a :: ps) (a :: (ps ++ t)) = true
      have hp : (a :: ps).isPrefixOf (a :: (ps ++ t)) = true :=
        isPrefixOf_append_self (a :: ps) t
      rw [containsSeg, hp, Bool.true_or]
  | cons c cs ih =>
    show containsSeg pat (c :: (cs ++ pat ++ t)) = true
    rw [containsSeg, ih, Bool.or_true]

/-- Counterexample to C9 as stated: with every field omitted the message
renders the priority slot as the plain word "medium" — no bracketed
placeholder follows "Priority: " anywhere in the text, so "a bracketed
placeholder for every omitted field" fails on the priority field. -/
theorem prompt_priority_counterexample :
    getCreateTodoPrompt ⟨none, none, none, none⟩ =
      { messages := [{ role := "user"
                       content := { type := "text"
                                    text := "Please help me create a TODO item with the following details:\nTitle: [Please provide a title]\nDescription: [Optional description]\nPriority: medium\nDue Date: [Optional due date]\n\nPlease provide any additional suggestions or improvements for this TODO item." } }] } ∧
    ¬ ∃ a b : String, promptTextOf none none none none = a ++ "Priority: [" ++ b := by
  constructor
  · rfl
  · rintro ⟨a, b, hab⟩
    have hc : containsSeg "Priority: [".data (promptTextOf none none none none).data
        = true := by
      rw [hab, string_data_append, string_data_append]
      exact containsSeg_of_append _ _ _
    exact absurd hc (by set_option maxRecDepth 16384 in decide)

/-- Claim C9 (amended): the prompt operation yields exactly one user-role
message; every supplied nonempty value is embedded verbatim in its text;
omitted title, description and due_date render as their bracketed
placeholders; an omitted priority renders as the plain default "medium"
rather than a bracketed placeholder. -/
theorem getCreateTodoPrompt_amended (t d pr dd : Option String) :
    getCreateTodoPrompt ⟨t, d, pr, dd⟩ =
      { messages := [{ role := "user"
                       content := { type := "text"
                                    text := promptTextOf t d pr dd } }] } ∧
    (∀ s : String, t = some s → s ≠ "" →
      ∃ a b, promptTextOf t d pr dd = a ++ s ++ b) ∧
    (∀ s : String, d = some s → s ≠ "" →
      ∃ a b, promptTextOf t d pr dd = a ++ s ++ b) ∧
    (∀ s : String, pr = some s → s ≠ "" →
      ∃ a b, promptTextOf t d pr dd = a ++ s ++ b) ∧
    (∀ s : String, dd = some s → s ≠ "" →
      ∃ a b, promptTextOf t d pr dd = a ++ s ++ b) ∧
    (t = none → ∃ a b, promptTextOf t d pr dd = a ++ "[Please provide a title]" ++ b) ∧
    (d = none → ∃ a b, promptTextOf t d pr dd = a ++ "[Optional description]" ++ b) ∧
    (dd = none → ∃ a b, promptTextOf t d pr dd = a ++ "[Optional due date]" ++ b) ∧
    (pr = none → ∃ a b, promptTextOf t d pr dd = a ++ "medium" ++ b) := by
  refine ⟨rfl, ?_, ?_, ?_, ?_, ?_, ?_, ?_, ?_⟩
  · intro s hs hne
    subst hs
    have hx : jsOr (some s) "[Please provide a title]" = s := by simp [jsOr, hne]
    unfold promptTextOf
    rw [hx]
    exact embed_cons _ _ _ (embed_head _ _)
  · intro s hs hne
    subst hs
    have hx : jsOr (some s) "[Optional description]" = s := by simp [jsOr, hne]
    unfold promptTextOf
    rw [hx]
    exact embed_cons _ _ _ (embed_cons _ _ _ (embed_cons _ _ _ (embed_head _ _)))
  · intro s hs hne
    subst hs
    have hx : jsOr (some s) "medium" = s := by simp [jsOr, hne]
    unfold promptTextOf
    rw [hx]
    exact embed_cons _ _ _ (embed_cons _ _ _ (embed_cons _ _ _ (embed_cons _ _ _
      (embed_cons _ _ _ (embed_head _ _)))))
  · intro s hs hne
    subst hs
    have hx : jsOr (some s) "[Optional due date]" = s := by simp [jsOr, hne]
    unfold promptTextOf
    rw [hx]
    exact embed_cons _ _ _ (embed_cons _ _ _ (embed_cons _ _ _ (embed_cons _ _ _
      (embed_cons _ _ _ (embed_cons _ _ _ (embed_cons _ _ _ (embed_head _ _)))))))
  · intro hs
    subst hs
    unfold promptTextOf
    exact embed_cons _ _ _ (embed_head _ _)
  · intro hs
    subst hs
    unfold promptTextOf
    exact embed_cons _ _ _ (embed_cons _ _ _ (embed_cons _ _ _ (embed_head _ _)))
  · intro hs
    subst hs
    unfold promptTextOf
    exact embed_cons _ _ _ (embed_cons _ _ _ (embed_cons _ _ _ (embed_cons _ _ _
      (embed_cons _ _ _ (embed_cons _ _ _ (embed_cons _ _ _ (embed_head _ _)))))))
  · intro hs
    subst hs
    unfold promptTextOf
    exact embed_cons _ _ _ (embed_cons _ _ _ (embed_cons _ _ _ (embed_cons _ _ _
      (embed_cons _ _ _ (embed_head _ _)))))

/-- Witness for C9's amended theorem: a supplied title is embedded. -/
theorem getCreateTodoPrompt_amended_witness :
    ∃ a b, promptTextOf (some "Buy milk") none none none = a ++ "Buy milk" ++ b :=
  (getCreateTodoPrompt_amended (some "Buy milk") none none none).2.1 "Buy milk" rfl
    (by decide)

/-- Claim C10: identity extraction is a pure function of the three forwarded
headers, and a header holding the empty string is treated exactly like an
absent header — the anonymous sentinel is substituted, never the empty
value. -/
theorem extractUserInfo_spec (g h : Headers) :
    (hGet h "x-forwarded-user" = some "" → (extractUserInfo h).id = "anonymous") ∧
    (hGet h "x-forwarded-user" = none → (extractUserInfo h).id = "anonymous") ∧
    (hGet h "x-forwarded-email" = some "" →
      (extractUserInfo h).email = "anonymous@example.com") ∧
    (hGet h "x-forwarded-email" = none →
      (extractUserInfo h).email = "anonymous@example.com") ∧
    (hGet h "x-forwarded-name" = some "" → (extractUserInfo h).name = "Anonymous User") ∧
    (hGet h "x-forwarded-name" = none → (extractUserInfo h).name = "Anonymous User") ∧
    (hGet g "x-forwarded-user" = hGet h "x-forwarded-user" →
      hGet g "x-forwarded-email" = hGet h "x-forwarded-email" →
      hGet g "x-forwarded-name" = hGet h "x-forwarded-name" →
      extractUserInfo g = extractUserInfo h) := by
  refine ⟨?_, ?_, ?_, ?_, ?_, ?_, ?_⟩
  · intro h1
    simp [extractUserInfo, jsOr, h1]
  · intro h1
    simp [extractUserInfo, jsOr, h1]
  · intro h1
    simp [extractUserInfo, jsOr, h1]
  · intro h1
    simp [extractUserInfo, jsOr, h1]
  · intro h1
    simp [extractUserInfo, jsOr, h1]
  · intro h1
    simp [extractUserInfo, jsOr, h1]
  · intro h1 h2 h3
    simp [extractUserInfo, h1, h2, h3]

/-- Witness for C10: an empty forwarded-user header yields the anonymous id. -/
theorem extractUserInfo_spec_witness :
    (extractUserInfo [("x-forwarded-user", "")]).id = "anonymous" :=
  (extractUserInfo_spec [] [("x-forwarded-user", "")]).1 rfl
